import Mathlib

/-!
Verification of the casic request/error pipeline.

Shallow embedding of the four source files:
- src/frontend/lib/errors.ts  (ApiError, handleApiError, withErrorHandler)
- src/frontend/lib/api.ts     (mergeHeaders, request, apiFetch)
- src/unnamed/part_000        (day-summary proxy handler)
- src/unnamed/part_001        (export-report proxy handler)

JavaScript runtime values that matter to the code are modelled explicitly:
JSON values, JS truthiness, string conversion, header records (plain JS
objects, case-sensitive keys) and Headers objects (lowercase-normalized,
comma-combining, case-insensitive lookup per the WHATWG fetch standard).
-/

/-- A JSON value, as produced by `JSON.parse` / `res.json()`.
Numbers are modelled as integers (no claim depends on fractional values). -/
inductive Json where
  | null : Json
  | bool : Bool → Json
  | num : Int → Json
  | str : String → Json
  | arr : List Json → Json
  | obj : List (String × Json) → Json

/-- JavaScript truthiness of a JSON value: `null`, `false`, `0` and `""`
are falsy; every array and object is truthy. -/
def Json.truthy : Json → Bool
  | .null => false
  | .bool b => b
  | .num n => n != 0
  | .str s => s != ""
  | .arr _ => true
  | .obj _ => true

/-- Property access `v?.k`: a field lookup that yields `none` (undefined)
on non-objects and on objects lacking the field. -/
def Json.getField : Json → String → Option Json
  | .obj fs, k => (fs.find? (fun p => p.1 = k)).map (fun p => p.2)
  | _, _ => none

/-- JS truthiness of a possibly-undefined value (`none` = `undefined`). -/
def jsTruthy : Option Json → Bool
  | none => false
  | some j => j.truthy

/-- The JS `a || b` operator on possibly-undefined values. -/
def jsOrElse (a b : Option Json) : Option Json :=
  if jsTruthy a then a else b

mutual

/-- JS `String(v)` conversion (as performed by the `Error` constructor on a
non-string message): arrays join their elements with commas (`null` elements
become empty), plain objects print as `[object Object]`. -/
def jsToString : Json → String
  | .null => "null"
  | .bool true => "true"
  | .bool false => "false"
  | .num n => toString n
  | .str s => s
  | .arr xs => String.intercalate "," (jsToStringElems xs)
  | .obj _ => "[object Object]"

/-- Element-wise conversion used by `Array.prototype.toString` (`join(",")`):
a `null` element converts to the empty string. -/
def jsToStringElems : List Json → List String
  | [] => []
  | .null :: js => "" :: jsToStringElems js
  | j :: js => jsToString j :: jsToStringElems js

end

/-- Character-wise escaping for `JSON.stringify` output. -/
def jsonEscapeChars : List Char → String
  | [] => ""
  | c :: cs =>
      (if c = '\\' then "\\\\" else if c = '"' then "\\\"" else String.singleton c) ++
        jsonEscapeChars cs

/-- Escape of a string for `JSON.stringify` output (quote and backslash;
no claim exercises control-character escapes). -/
def jsonEscape (s : String) : String :=
  jsonEscapeChars s.data

mutual

/-- `JSON.stringify` on an acyclic JSON value. -/
def Json.stringify : Json → String
  | .null => "null"
  | .bool true => "true"
  | .bool false => "false"
  | .num n => toString n
  | .str s => "\"" ++ jsonEscape s ++ "\""
  | .arr xs => "[" ++ String.intercalate "," (stringifyElems xs) ++ "]"
  | .obj fs => "\x7b" ++ String.intercalate "," (stringifyFields fs) ++ "\x7d"

/-- Serialized array elements. -/
def stringifyElems : List Json → List String
  | [] => []
  | j :: js => Json.stringify j :: stringifyElems js

/-- Serialized object fields. -/
def stringifyFields : List (String × Json) → List String
  | [] => []
  | (k, v) :: fs => ("\"" ++ jsonEscape k ++ "\":" ++ Json.stringify v) :: stringifyFields fs

end

/-! ## Header lists and JS objects used as header records

A `Headers` object (WHATWG fetch) is modelled as a list of name/value
entries whose names are lowercase; `get`/`has`/`delete` are
case-insensitive and `get` joins multiple matching entries with ", ".
A plain JS object used as a `Record<string, string>` keeps its keys
verbatim (case-sensitive) with last-write-wins assignment. -/

/-- ASCII lowercasing of a header name (the normalization `Headers`
applies to names; JS string `toLowerCase` restricted to ASCII). -/
def lowerStr (s : String) : String := String.mk (s.data.map Char.toLower)

/-- `Headers.get(name)`: case-insensitive lookup, combining all matching
values with ", "; `none` models `null`. -/
def headersGet (hs : List (String × String)) (name : String) : Option String :=
  match (hs.filter (fun p => lowerStr p.1 = lowerStr name)).map (fun p => p.2) with
  | [] => none
  | v :: vs => some (vs.foldl (fun acc w => acc ++ ", " ++ w) v)

/-- `Headers.has(name)`: case-insensitive presence test. -/
def headersHas (hs : List (String × String)) (name : String) : Bool :=
  hs.any (fun p => lowerStr p.1 = lowerStr name)

/-- `Headers.append(name, value)`: lowercases the name and combines with an
existing entry of the same name using ", ", else adds a new entry. -/
def headersAppend : List (String × String) → String → String → List (String × String)
  | [], k, v => [(lowerStr k, v)]
  | p :: ps, k, v =>
      if p.1 = lowerStr k then (p.1, p.2 ++ ", " ++ v) :: ps else p :: headersAppend ps k v

/-- Filling a fresh `Headers` object from a sequence of entries (the
`new Headers(init)` fill algorithm appends each entry in turn). -/
def headersFillAux : List (String × String) → List (String × String) → List (String × String)
  | acc, [] => acc
  | acc, p :: ps => headersFillAux (headersAppend acc p.1 p.2) ps

/-- `new Headers(entries)`. -/
def headersFill (xs : List (String × String)) : List (String × String) :=
  headersFillAux [] xs

/-- `Headers.set(name, value)`: replaces the matching entry (names in the
list are already lowercase) or appends a new one. -/
def headersSetH : List (String × String) → String → String → List (String × String)
  | [], k, v => [(lowerStr k, v)]
  | p :: ps, k, v => if p.1 = lowerStr k then (lowerStr k, v) :: ps else p :: headersSetH ps k v

/-- `Headers.delete(name)`: case-insensitive removal. -/
def headersDelete (hs : List (String × String)) (name : String) : List (String × String) :=
  hs.filter (fun p => lowerStr p.1 ≠ lowerStr name)

/-- JS object property assignment `out[k] = v`: updates the entry with the
exact (case-sensitive) key in place, else appends it. -/
def recordSet : List (String × String) → String → String → List (String × String)
  | [], k, v => [(k, v)]
  | p :: ps, k, v => if p.1 = k then (k, v) :: ps else p :: recordSet ps k v

/-- `Object.assign(out, src)` / a sequence of JS object assignments. -/
def recordAssignList (out src : List (String × String)) : List (String × String) :=
  src.foldl (fun o p => recordSet o p.1 p.2) out

/-- JS object property read `out[k]` (case-sensitive). -/
def recordGet (out : List (String × String)) (k : String) : Option String :=
  (out.find? (fun p => p.1 = k)).map (fun p => p.2)

/-! ## src/frontend/lib/api.ts -/

/-- The three runtime shapes of a `HeadersInit` value accepted by
`mergeHeaders` and `new Headers(...)`: an array of pairs, a plain
`Record<string, string>` object, or an existing `Headers` instance. -/
inductive HeadersInitV where
  | pairs : List (String × String) → HeadersInitV
  | record : List (String × String) → HeadersInitV
  | hdrs : List (String × String) → HeadersInitV

/-- The entry sequence each `HeadersInit` shape yields when iterated: an
array yields its pairs, an object its (deduplicated, case-sensitive)
properties, and a `Headers` instance its normalized entries (lowercase
names, same-name values combined — `forEach` and the fill algorithm both
see this normalized view). -/
def headersEntries : HeadersInitV → List (String × String)
  | .pairs xs => xs
  | .record xs => recordAssignList [] xs
  | .hdrs xs => headersFill xs

/-- The record built by the first half of `mergeHeaders` from the optional
caller `HeadersInit` (`for (const [k, v] of a) out[k] = v`,
`a.forEach((v, k) => (out[k] = v))`, or `Object.assign(out, a)`). -/
def toRecord : Option HeadersInitV → List (String × String)
  | none => []
  | some h => recordAssignList [] (headersEntries h)

/-- `mergeHeaders(a, b)` from src/frontend/lib/api.ts: copy `a` into a fresh
record, then `Object.assign(out, b)` — `b`'s exact keys overwrite. -/
def mergeHeaders (a : Option HeadersInitV) (b : List (String × String)) :
    List (String × String) :=
  recordAssignList (toRecord a) b

/-- The header record built by `request(path, options)`: the caller headers
merged with `Content-Type: application/json` and, when a token is stored,
`Authorization: Bearer <token>`. -/
def requestHeaders (callerHeaders : Option HeadersInitV) (token : Option String) :
    List (String × String) :=
  mergeHeaders callerHeaders
    ([("Content-Type", "application/json")] ++
      (match token with
       | some t => [("Authorization", "Bearer " ++ t)]
       | none => []))

/-- `new Headers(init)` on an optional `HeadersInit` (used by `apiFetch`). -/
def newHeaders : Option HeadersInitV → List (String × String)
  | none => []
  | some h => headersFill (headersEntries h)

/-- The header set built by `apiFetch(path, init)`: a fresh `Headers` from
the caller's init, with `authorization: Bearer <token>` set only when a
token exists and no authorization header is already present
(case-insensitive `has`). -/
def apiFetchHeaders (callerHeaders : Option HeadersInitV) (token : Option String) :
    List (String × String) :=
  let h := newHeaders callerHeaders
  match token with
  | some t =>
      if headersHas h "authorization" then h
      else headersSetH h "authorization" ("Bearer " ++ t)
  | none => h

/-- The parts of the fetch init built by `apiFetch` that the claims are
about: the outgoing headers and the credentials policy. -/
structure OutgoingInit where
  headers : List (String × String)
  credentials : String

/-- The fetch init issued by `apiFetch`: the computed headers and
`credentials: "omit"`. -/
def apiFetchOutgoing (callerHeaders : Option HeadersInitV) (token : Option String) :
    OutgoingInit :=
  { headers := apiFetchHeaders callerHeaders token, credentials := "omit" }

/-! ## Fetch responses and body consumption

`res.json()` and `res.text()` consume the body: per the WHATWG fetch
standard, once the body stream has been read (disturbed), any further
`json()`/`text()` call rejects with a `TypeError` ("Body is unusable").
A response with no body (`body === null`) is never disturbed: `text()`
yields `""` and `json()` rejects with a parse error. The operations are
modelled as explicit state passing of the `bodyUsed` flag. -/

/-- A JS thrown value: an `Error` instance carrying its message, or any
other thrown value. -/
inductive Thrown where
  | error : String → Thrown
  | nonError : Json → Thrown

/-- Message of the `TypeError` raised when reading an already-consumed body. -/
def bodyUnusableMsg : String := "Body is unusable: Body has already been read"

/-- Message of the `SyntaxError` raised by `JSON.parse` on invalid input. -/
def jsonParseErrMsg : String := "Unexpected token in JSON"

/-- Message of the network error raised when the body stream breaks mid-read. -/
def bodyReadErrMsg : String := "terminated"

/-- A fetch `Response`. `bodyJson` holds the result of `JSON.parse` on the
body text (`none` when the text is not valid JSON); `hasBody = false` models
a `null` body (then `bodyText = ""` and `bodyJson = none`); `bodyBroken`
models a body stream that errors when read. -/
structure FetchResponse where
  status : Nat
  statusText : String
  headers : List (String × String)
  hasBody : Bool
  bodyBroken : Bool
  bodyText : String
  bodyJson : Option Json

/-- `res.ok`: status in the range 200–299. -/
def FetchResponse.okStatus (r : FetchResponse) : Bool :=
  200 ≤ r.status && r.status < 300

/-- `res.body` as an opaque byte stream (`none` = null body). -/
def FetchResponse.bodyStream (r : FetchResponse) : Option String :=
  if r.hasBody then some r.bodyText else none

/-- `await res.json()` with explicit body-used state: fails on an already
consumed body, a broken stream, or invalid JSON; reading a non-null body
marks it used. -/
def FetchResponse.jsonOp (r : FetchResponse) (used : Bool) : Except Thrown Json × Bool :=
  if used then (Except.error (Thrown.error bodyUnusableMsg), used)
  else if r.bodyBroken then (Except.error (Thrown.error bodyReadErrMsg), r.hasBody)
  else
    (match r.bodyJson with
     | some j => Except.ok j
     | none => Except.error (Thrown.error jsonParseErrMsg), r.hasBody)

/-- `await res.text()` with explicit body-used state. -/
def FetchResponse.textOp (r : FetchResponse) (used : Bool) : Except Thrown String × Bool :=
  if used then (Except.error (Thrown.error bodyUnusableMsg), used)
  else if r.bodyBroken then (Except.error (Thrown.error bodyReadErrMsg), r.hasBody)
  else (Except.ok r.bodyText, r.hasBody)

/-! ## src/frontend/lib/errors.ts -/

/-- `ApiError`: message, HTTP status (0 = no status) and optional details. -/
structure ApiError where
  message : String
  status : Nat
  details : Option Json

/-- Does the character list start with the given pattern? -/
def charsStartWith : List Char → List Char → Bool
  | _, [] => true
  | [], _ :: _ => false
  | c :: cs, d :: ds => c = d && charsStartWith cs ds

/-- Does the character list contain the pattern as a contiguous run? -/
def charsContain : List Char → List Char → Bool
  | [], pat => pat.isEmpty
  | c :: cs, pat => charsStartWith (c :: cs) pat || charsContain cs pat

/-- `s.includes(pat)` on JS strings. -/
def containsSub (s pat : String) : Bool :=
  charsContain s.data pat.data

/-- The default message `"API {status}: {statusText}"`. -/
def defaultMessage (r : FetchResponse) : String :=
  "API " ++ toString r.status ++ ": " ++ r.statusText

/-- `ApiError.fromResponse(res)`: reads `content-type`; on a JSON content
type parses the body and takes `json?.detail || json?.message || default`
(JS truthiness, result converted to a string by the `Error` constructor),
keeping the parsed body as details; on any other content type takes
`text || default`, keeping the text as details; any failure while reading
the body falls back to the default message with absent details. -/
def ApiError.fromResponse (r : FetchResponse) : ApiError :=
  let dflt := defaultMessage r
  let ct := (headersGet r.headers "content-type").getD ""
  if containsSub ct "application/json" then
    match (r.jsonOp false).1 with
    | Except.ok j =>
        let mval := jsOrElse (j.getField "detail")
          (jsOrElse (j.getField "message") (some (Json.str dflt)))
        { message := jsToString (mval.getD (Json.str dflt)), status := r.status,
          details := some j }
    | Except.error _ => { message := dflt, status := r.status, details := none }
  else
    match (r.textOp false).1 with
    | Except.ok t =>
        { message := if t = "" then dflt else t, status := r.status,
          details := some (Json.str t) }
    | Except.error _ => { message := dflt, status := r.status, details := none }

/-- The runtime shapes an arbitrary failure value passed to
`handleApiError` can take, after `instanceof`/`typeof` dispatch: an
`ApiError`, another `Error`, a string, `null`, a number, a boolean, an
array, or a plain object. A plain object carries its enumerable fields
and a flag telling whether it is circular (so `JSON.stringify` throws). -/
inductive ErrValue where
  | apiErr : ApiError → ErrValue
  | err : String → ErrValue
  | str : String → ErrValue
  | jsNull : ErrValue
  | num : Int → ErrValue
  | bool : Bool → ErrValue
  | arrv : List Json → ErrValue
  | obj : List (String × Json) → Bool → ErrValue

/-- `handleApiError(error)` from src/frontend/lib/errors.ts: ApiError
message, then Error message, then the string itself, then a plain object's
`message` field when string-typed (else the localized fallback), then
`JSON.stringify`, and the localized fallback `"Ошибка"` when stringify
throws. Total: it never raises. -/
def handleApiError : ErrValue → String
  | .apiErr e => e.message
  | .err m => m
  | .str s => s
  | .jsNull => "null"
  | .num n => toString n
  | .bool true => "true"
  | .bool false => "false"
  | .arrv xs => Json.stringify (Json.arr xs)
  | .obj fs circular =>
      match (fs.find? (fun p => p.1 = "message")).map (fun p => p.2) with
      | some (Json.str s) => s
      | some _ => "Ошибка"
      | none => if circular then "Ошибка" else Json.stringify (Json.obj fs)

/-- `withErrorHandler(fn, onError)` from src/frontend/lib/errors.ts,
applied to one argument tuple. The async computation `fn` is modelled as a
function into `Except Thrown`; the wrapped function returns `some` of the
resolved value, or `none` (JS `null`) when `fn` rejects. The second
component records the invocations of `onError` (one call with the caught
value when an `onError` callback was supplied, none otherwise);
`console.error` logging is not observable here. -/
def withErrorHandler {A B : Type} (fn : A → Except Thrown B) (hasOnError : Bool) (a : A) :
    Option B × List Thrown :=
  match fn a with
  | Except.ok v => (some v, [])
  | Except.error e => (none, if hasOnError then [e] else [])

/-! ## The two proxy handlers (src/unnamed/part_000 and part_001) -/

/-- Result of the `fetch` call a proxy handler makes against the upstream:
a response, or a rejection (network/transport failure). -/
inductive FetchOutcome where
  | success : FetchResponse → FetchOutcome
  | failure : Thrown → FetchOutcome

/-- A `NextResponse.json(body, { status })` reply. -/
structure JsonResponse where
  status : Nat
  body : Json

/-- The `{error: "Internal server error", message: ...}` payload built in
both handlers' catch blocks
(`error instanceof Error ? error.message : "Unknown error"`). -/
def internalErrorBody : Thrown → Json
  | .error m => Json.obj [("error", Json.str "Internal server error"), ("message", Json.str m)]
  | .nonError _ =>
      Json.obj [("error", Json.str "Internal server error"), ("message", Json.str "Unknown error")]

/-- Headers forwarded upstream by the day-summary handler (part_000):
a fresh `Headers`, with the inbound `cookie` and `authorization` values
copied over when truthy (`if (cookie) headers.set("cookie", cookie)`). -/
def dayForwardedHeaders (inbound : List (String × String)) : List (String × String) :=
  (match headersGet inbound "cookie" with
   | some c => if c = "" then [] else [("cookie", c)]
   | none => []) ++
  (match headersGet inbound "authorization" with
   | some a => if a = "" then [] else [("authorization", a)]
   | none => [])

/-- Headers forwarded upstream by the export-report handler (part_001);
the forwarding code is the same as in part_000. -/
def exportForwardedHeaders (inbound : List (String × String)) : List (String × String) :=
  (match headersGet inbound "cookie" with
   | some c => if c = "" then [] else [("cookie", c)]
   | none => []) ++
  (match headersGet inbound "authorization" with
   | some a => if a = "" then [] else [("authorization", a)]
   | none => [])

/-- The day-summary handler's treatment of the upstream fetch outcome
(part_000): relay parsed JSON at the upstream status; if `res.json()`
fails, try `res.text()` and relay `{error: "Failed to parse response",
details: text}` at the upstream status; any error escaping that
(including the `TypeError` from reading an already-consumed body) is
caught by the outer catch, which replies 500 with the internal-error
payload. -/
def daySummaryRelay : FetchOutcome → JsonResponse
  | .failure e => { status := 500, body := internalErrorBody e }
  | .success r =>
      match r.jsonOp false with
      | (Except.ok data, _) => { status := r.status, body := data }
      | (Except.error _, used) =>
          match (r.textOp used).1 with
          | Except.ok t =>
              { status := r.status,
                body := Json.obj
                  [("error", Json.str "Failed to parse response"), ("details", Json.str t)] }
          | Except.error e2 => { status := 500, body := internalErrorBody e2 }

/-- A raw streamed reply `new NextResponse(res.body, { status, headers })`. -/
structure RawResponse where
  status : Nat
  headers : List (String × String)
  body : Option String

/-- The export-report handler's reply: either a raw relay or the
catch-block JSON reply. -/
inductive HandlerBResult where
  | relay : RawResponse → HandlerBResult
  | jsonErr : JsonResponse → HandlerBResult

/-- The export-report handler's treatment of the upstream fetch outcome
(part_001): copy the upstream headers into a fresh `Headers`, delete
`content-encoding`, and relay the upstream body stream untouched at the
upstream status; transport failures reply 500 with the internal-error
payload. -/
def exportReportRelay : FetchOutcome → HandlerBResult
  | .failure e => .jsonErr { status := 500, body := internalErrorBody e }
  | .success r =>
      .relay
        { status := r.status,
          headers := headersDelete (headersFill r.headers) "content-encoding",
          body := r.bodyStream }

/-- The response handling shared by `apiJson`/`apiText`/`apiBlob`/`apiFetch`:
a non-ok status raises `ApiError.fromResponse(res)`, an ok status hands the
raw response on. -/
def apiFetchResult (r : FetchResponse) : Except ApiError FetchResponse :=
  if r.okStatus then Except.ok r else Except.error (ApiError.fromResponse r)

/-! ## Helper lemmas -/

theorem recordGet_set_self (out : List (String × String)) (k v : String) :
    recordGet (recordSet out k v) k = some v := by
  induction out with
  | nil => simp [recordSet, recordGet]
  | cons p ps ih =>
      by_cases h : p.1 = k
      · simp [recordSet, h, recordGet]
      · simpa [recordSet, h, recordGet, List.find?] using ih

theorem recordGet_cons (p : String × String) (ps : List (String × String)) (k : String) :
    recordGet (p :: ps) k = if p.1 = k then some p.2 else recordGet ps k := by
  by_cases h : p.1 = k
  · simp [recordGet, List.find?_cons_of_pos, h]
  · simp [recordGet, List.find?_cons_of_neg, h]

theorem recordGet_set_other (out : List (String × String)) (k v k' : String) (h : k' ≠ k) :
    recordGet (recordSet out k v) k' = recordGet out k' := by
  induction out with
  | nil => simp [recordSet, recordGet, List.find?, Ne.symm h]
  | cons p ps ih =>
      by_cases hp : p.1 = k
      · rw [show recordSet (p :: ps) k v = (k, v) :: ps from by simp [recordSet, hp]]
        rw [recordGet_cons, recordGet_cons, if_neg (Ne.symm h),
          if_neg (fun hk : p.1 = k' => h (hk ▸ hp))]
      · rw [show recordSet (p :: ps) k v = p :: recordSet ps k v from by simp [recordSet, hp]]
        rw [recordGet_cons, recordGet_cons, ih]

theorem recordSet_of_forall_ne (out : List (String × String)) (k v : String)
    (h : ∀ p ∈ out, p.1 ≠ k) : recordSet out k v = out ++ [(k, v)] := by
  induction out with
  | nil => simp [recordSet]
  | cons p ps ih =>
      have hp : p.1 ≠ k := h p (by simp)
      simp only [recordSet, if_neg hp, List.cons_append, List.cons.injEq, true_and]
      exact ih (fun q hq => h q (by simp [hq]))

theorem recordSet_keys (out : List (String × String)) (k v : String) :
    ∀ q ∈ recordSet out k v, q.1 = k ∨ q.1 ∈ out.map Prod.fst := by
  induction out with
  | nil =>
      intro q hq
      simp only [recordSet, List.mem_singleton] at hq
      subst hq
      exact Or.inl rfl
  | cons p ps ih =>
      intro q hq
      by_cases hp : p.1 = k
      · simp only [recordSet, if_pos hp] at hq
        rcases List.mem_cons.1 hq with h1 | h1
        · subst h1; exact Or.inl rfl
        · exact Or.inr (by simpa using Or.inr (List.mem_map_of_mem Prod.fst h1))
      · simp only [recordSet, if_neg hp] at hq
        rcases List.mem_cons.1 hq with h1 | h1
        · subst h1; exact Or.inr (by simp)
        · rcases ih q h1 with h2 | h2
          · exact Or.inl h2
          · exact Or.inr (by simpa using Or.inr h2)

theorem filter_eq_nil_of_forall {A : Type} (l : List A) (p : A → Bool)
    (h : ∀ a ∈ l, p a = false) : l.filter p = [] := by
  induction l with
  | nil => rfl
  | cons a as ih =>
      rw [List.filter_cons, h a (List.mem_cons_self a as)]
      exact ih (fun b hb => h b (List.mem_cons_of_mem a hb))

/-! ## Claims C3 and C8: header merging in `request` -/

/-- Claim C3 (amended): in the record built by `request`, the injected
defaults override a caller entry under the exact same (case-sensitive) key:
`Content-Type` always maps to `application/json`, `Authorization` maps to
`Bearer <token>` whenever a token is stored, and every caller entry under
any other exact key passes through unchanged. (A caller key differing only
in case is a distinct record key and survives alongside — see the
counterexample.) -/
theorem requestHeaders_override_spec (caller : Option HeadersInitV) (token : Option String) :
    recordGet (requestHeaders caller token) "Content-Type" = some "application/json"
    ∧ (∀ t, token = some t →
        recordGet (requestHeaders caller token) "Authorization" = some ("Bearer " ++ t))
    ∧ ∀ k, k ≠ "Content-Type" → k ≠ "Authorization" →
        recordGet (requestHeaders caller token) k = recordGet (toRecord caller) k := by
  cases token with
  | none =>
      have e : requestHeaders caller none
          = recordSet (toRecord caller) "Content-Type" "application/json" := rfl
      refine ⟨?_, ?_, ?_⟩
      · rw [e, recordGet_set_self]
      · intro t ht; cases ht
      · intro k h1 _
        rw [e, recordGet_set_other _ _ _ _ h1]
  | some t =>
      have e : requestHeaders caller (some t)
          = recordSet (recordSet (toRecord caller) "Content-Type" "application/json")
              "Authorization" ("Bearer " ++ t) := rfl
      refine ⟨?_, ?_, ?_⟩
      · rw [e, recordGet_set_other _ _ _ _ (by decide), recordGet_set_self]
      · intro t' ht
        cases ht
        rw [e, recordGet_set_self]
      · intro k h1 h2
        rw [e, recordGet_set_other _ _ _ _ h2, recordGet_set_other _ _ _ _ h1]

/-- Witness for C3: a caller record with an unrelated header and a stored
token, evaluated concretely. -/
theorem requestHeaders_override_spec_witness :
    recordGet (requestHeaders (some (HeadersInitV.record [("X-Custom", "7")])) (some "abc"))
        "Content-Type" = some "application/json"
    ∧ recordGet (requestHeaders (some (HeadersInitV.record [("X-Custom", "7")])) (some "abc"))
        "Authorization" = some ("Bearer " ++ "abc")
    ∧ recordGet (requestHeaders (some (HeadersInitV.record [("X-Custom", "7")])) (some "abc"))
        "X-Custom"
      = recordGet (toRecord (some (HeadersInitV.record [("X-Custom", "7")]))) "X-Custom" :=
  ⟨(requestHeaders_override_spec (some (HeadersInitV.record [("X-Custom", "7")]))
      (some "abc")).1,
   (requestHeaders_override_spec (some (HeadersInitV.record [("X-Custom", "7")]))
      (some "abc")).2.1 "abc" rfl,
   (requestHeaders_override_spec (some (HeadersInitV.record [("X-Custom", "7")]))
      (some "abc")).2.2 "X-Custom" (by decide) (by decide)⟩

/-- Counterexample for C3 as stated: a caller header named `content-type`
(the same HTTP header name as `Content-Type`, differing only in case) is
not overridden by the injected default — its value survives in the merged
record next to the injected entry, so the injected value did not replace
the caller-declared value for that header name. -/
theorem mergeHeaders_case_cex :
    requestHeaders (some (HeadersInitV.record [("content-type", "text/plain")])) none
      = [("content-type", "text/plain"), ("Content-Type", "application/json")]
    ∧ recordGet
        (requestHeaders (some (HeadersInitV.record [("content-type", "text/plain")])) none)
        "content-type" = some "text/plain" :=
  ⟨rfl, rfl⟩

/-- Claim C8: through `request`, with a stored token `"abc"` and no
caller-supplied authorization header (under any casing), the outgoing
record carries exactly the header `Authorization: Bearer abc`; with no
stored token, no authorization header is injected. -/
theorem request_auth_spec (caller : Option HeadersInitV)
    (h : ∀ p ∈ toRecord caller, lowerStr p.1 ≠ "authorization") :
    (requestHeaders caller (some "abc")).filter
        (fun p => lowerStr p.1 = "authorization") = [("Authorization", "Bearer " ++ "abc")]
    ∧ ∀ p ∈ requestHeaders caller none, lowerStr p.1 ≠ "authorization" := by
  have hCT : ∀ p ∈ recordSet (toRecord caller) "Content-Type" "application/json",
      lowerStr p.1 ≠ "authorization" := by
    intro p hp
    rcases recordSet_keys _ _ _ p hp with h1 | h1
    · rw [h1]; decide
    · rcases List.mem_map.1 h1 with ⟨q, hq, hq2⟩
      rw [← hq2]
      exact h q hq
  constructor
  · have e : requestHeaders caller (some "abc")
        = recordSet (recordSet (toRecord caller) "Content-Type" "application/json")
            "Authorization" ("Bearer " ++ "abc") := rfl
    have hne : ∀ p ∈ recordSet (toRecord caller) "Content-Type" "application/json",
        p.1 ≠ "Authorization" := by
      intro p hp hcontra
      exact hCT p hp (by rw [hcontra]; decide)
    rw [e, recordSet_of_forall_ne _ _ _ hne, List.filter_append,
      filter_eq_nil_of_forall _ _ (fun p hp => decide_eq_false (hCT p hp))]
    decide
  · intro p hp
    have e : requestHeaders caller none
        = recordSet (toRecord caller) "Content-Type" "application/json" := rfl
    rw [e] at hp
    exact hCT p hp

/-- Witness for C8: no caller headers at all. -/
theorem request_auth_spec_witness :
    (∀ p ∈ toRecord none, lowerStr p.1 ≠ "authorization")
    ∧ (requestHeaders none (some "abc")).filter
        (fun p => lowerStr p.1 = "authorization") = [("Authorization", "Bearer " ++ "abc")] := by
  have h : ∀ p ∈ toRecord none, lowerStr p.1 ≠ "authorization" := by
    intro p hp
    simp [toRecord] at hp
  exact ⟨h, (request_auth_spec none h).1⟩

theorem jsOrElse_of_true (a b : Option Json) (h : jsTruthy a = true) : jsOrElse a b = a := by
  simp [jsOrElse, h]

theorem jsOrElse_of_false (a b : Option Json) (h : jsTruthy a = false) : jsOrElse a b = b := by
  simp [jsOrElse, h]

/-! ## Claims C1 and C5: `ApiError.fromResponse` -/

/-- Claim C1 (amended): for a readable body and a JSON content type, the
derived message is the body's `detail` field (converted to a string) when
that field is truthy; when `detail` is absent or falsy and `message` is
truthy, it is the `message` field; when both are absent or falsy, it is
the default `"API {status}: {statusText}"`. For a non-JSON content type
the message is the raw body text when non-empty, else the default. -/
theorem fromResponse_message_spec (r : FetchResponse) (hb : r.bodyBroken = false) :
    (containsSub ((headersGet r.headers "content-type").getD "") "application/json" = true →
      ∀ j, r.bodyJson = some j →
        (∀ d, j.getField "detail" = some d → d.truthy = true →
            (ApiError.fromResponse r).message = jsToString d)
        ∧ (jsTruthy (j.getField "detail") = false →
            ∀ m, j.getField "message" = some m → m.truthy = true →
              (ApiError.fromResponse r).message = jsToString m)
        ∧ (jsTruthy (j.getField "detail") = false → jsTruthy (j.getField "message") = false →
            (ApiError.fromResponse r).message = defaultMessage r))
    ∧ (containsSub ((headersGet r.headers "content-type").getD "") "application/json" = false →
        (ApiError.fromResponse r).message
          = if r.bodyText = "" then defaultMessage r else r.bodyText) := by
  constructor
  · intro hct j hj
    have hjson : (r.jsonOp false).1 = Except.ok j := by
      simp [FetchResponse.jsonOp, hb, hj]
    have e : (ApiError.fromResponse r).message
        = jsToString ((jsOrElse (j.getField "detail")
            (jsOrElse (j.getField "message")
              (some (Json.str (defaultMessage r))))).getD (Json.str (defaultMessage r))) := by
      simp only [ApiError.fromResponse, hct, if_true, hjson]
    refine ⟨?_, ?_, ?_⟩
    · intro d hd htr
      rw [e, hd, jsOrElse_of_true _ _ (by simp [jsTruthy, htr])]
      simp
    · intro hdf m hm htr
      rw [e, jsOrElse_of_false _ _ hdf, hm,
        jsOrElse_of_true _ _ (by simp [jsTruthy, htr])]
      simp
    · intro hdf hmf
      rw [e, jsOrElse_of_false _ _ hdf, jsOrElse_of_false _ _ hmf]
      simp [jsToString]
  · intro hct
    have htext : (r.textOp false).1 = Except.ok r.bodyText := by
      simp [FetchResponse.textOp, hb]
    simp only [ApiError.fromResponse, hct, Bool.false_eq_true, if_false, htext]

/-- Witness for C1: a 422 JSON response whose body is
`{"detail": "boom"}`, evaluated concretely. -/
theorem fromResponse_message_spec_witness :
    ({ status := 422, statusText := "Unprocessable", headers := [("content-type", "application/json")],
       hasBody := true, bodyBroken := false, bodyText := "x",
       bodyJson := some (Json.obj [("detail", Json.str "boom")]) } : FetchResponse).bodyBroken = false
    ∧ containsSub
        ((headersGet
            ({ status := 422, statusText := "Unprocessable",
               headers := [("content-type", "application/json")], hasBody := true,
               bodyBroken := false, bodyText := "x",
               bodyJson := some (Json.obj [("detail", Json.str "boom")]) } : FetchResponse).headers
            "content-type").getD "")
        "application/json" = true
    ∧ (Json.obj [("detail", Json.str "boom")]).getField "detail" = some (Json.str "boom")
    ∧ (Json.str "boom").truthy = true
    ∧ (ApiError.fromResponse
        { status := 422, statusText := "Unprocessable",
          headers := [("content-type", "application/json")], hasBody := true,
          bodyBroken := false, bodyText := "x",
          bodyJson := some (Json.obj [("detail", Json.str "boom")]) }).message
      = jsToString (Json.str "boom") :=
  ⟨rfl, by decide, rfl, rfl,
   ((fromResponse_message_spec
       { status := 422, statusText := "Unprocessable",
         headers := [("content-type", "application/json")], hasBody := true,
         bodyBroken := false, bodyText := "x",
         bodyJson := some (Json.obj [("detail", Json.str "boom")]) } rfl).1
     (by decide) (Json.obj [("detail", Json.str "boom")]) rfl).1
     (Json.str "boom") rfl rfl⟩

/-- Counterexample for C1 as stated: a JSON body whose `detail` field is
present but is the empty string. The claim says the derived message equals
the `detail` field (the empty string); the code's `||` chain skips the
falsy `detail` and uses the `message` field instead. -/
theorem fromResponse_detail_falsy_cex :
    ({ status := 400, statusText := "Bad Request",
       headers := [("content-type", "application/json")], hasBody := true,
       bodyBroken := false, bodyText := "x",
       bodyJson := some (Json.obj [("detail", Json.str ""), ("message", Json.str "m")]) }
        : FetchResponse).bodyJson
      = some (Json.obj [("detail", Json.str ""), ("message", Json.str "m")])
    ∧ (Json.obj [("detail", Json.str ""), ("message", Json.str "m")]).getField "detail"
      = some (Json.str "")
    ∧ (ApiError.fromResponse
        { status := 400, statusText := "Bad Request",
          headers := [("content-type", "application/json")], hasBody := true,
          bodyBroken := false, bodyText := "x",
          bodyJson := some (Json.obj [("detail", Json.str ""), ("message", Json.str "m")]) }).message
      = "m"
    ∧ ("m" : String) ≠ "" := by
  refine ⟨rfl, rfl, ?_, by decide⟩
  simp [ApiError.fromResponse, FetchResponse.jsonOp, headersGet, containsSub, lowerStr,
    charsContain, charsStartWith, Json.getField, jsOrElse, jsTruthy, Json.truthy,
    jsToString, defaultMessage, List.find?, List.filter]

/-- Claim C5: whenever the body cannot be read (broken stream) or, on a
JSON content type, cannot be parsed, `ApiError.fromResponse` still returns
an `ApiError` carrying the default `"API {status}: {statusText}"` message
and absent details; the construction is a total function (never raises). -/
theorem fromResponse_unreadable_spec (r : FetchResponse) :
    (r.bodyBroken = true →
        ApiError.fromResponse r
          = { message := defaultMessage r, status := r.status, details := none })
    ∧ (containsSub ((headersGet r.headers "content-type").getD "") "application/json" = true →
        r.bodyJson = none →
        ApiError.fromResponse r
          = { message := defaultMessage r, status := r.status, details := none }) := by
  constructor
  · intro hb
    by_cases hct :
        containsSub ((headersGet r.headers "content-type").getD "") "application/json" = true
    · have hjson : (r.jsonOp false).1 = Except.error (Thrown.error bodyReadErrMsg) := by
        simp [FetchResponse.jsonOp, hb]
      simp only [ApiError.fromResponse, hct, if_true, hjson]
    · have htext : (r.textOp false).1 = Except.error (Thrown.error bodyReadErrMsg) := by
        simp [FetchResponse.textOp, hb]
      rw [Bool.not_eq_true] at hct
      simp only [ApiError.fromResponse, hct, Bool.false_eq_true, if_false, htext]
  · intro hct hj
    by_cases hb : r.bodyBroken = true
    · have hjson : (r.jsonOp false).1 = Except.error (Thrown.error bodyReadErrMsg) := by
        simp [FetchResponse.jsonOp, hb]
      simp only [ApiError.fromResponse, hct, if_true, hjson]
    · rw [Bool.not_eq_true] at hb
      have hjson : (r.jsonOp false).1 = Except.error (Thrown.error jsonParseErrMsg) := by
        simp [FetchResponse.jsonOp, hb, hj]
      simp only [ApiError.fromResponse, hct, if_true, hjson]

/-- Witness for C5: a 500 response whose body stream breaks when read. -/
theorem fromResponse_unreadable_spec_witness :
    ({ status := 500, statusText := "Internal Server Error", headers := [], hasBody := true,
       bodyBroken := true, bodyText := "", bodyJson := none } : FetchResponse).bodyBroken = true
    ∧ ApiError.fromResponse
        { status := 500, statusText := "Internal Server Error", headers := [], hasBody := true,
          bodyBroken := true, bodyText := "", bodyJson := none }
      = { message := "API 500: Internal Server Error", status := 500, details := none } := by
  refine ⟨rfl, ?_⟩
  have h := (fromResponse_unreadable_spec
    { status := 500, statusText := "Internal Server Error", headers := [], hasBody := true,
      bodyBroken := true, bodyText := "", bodyJson := none }).1 rfl
  rw [h]
  rfl

/-! ## Claim C2: `handleApiError` -/

/-- Claim C2 (amended): `handleApiError` is a total function (never
raises) returning, by priority: an ApiError's message; a generic Error's
message; a raw string itself; a plain object's `message` field when that
field is a string, and the localized fallback `"Ошибка"` when the field
exists but is not a string; otherwise the JSON serialization of the value;
and the localized fallback `"Ошибка"` when serialization fails (circular
value). -/
theorem handleApiError_spec :
    (∀ e, handleApiError (ErrValue.apiErr e) = e.message)
    ∧ (∀ m, handleApiError (ErrValue.err m) = m)
    ∧ (∀ s, handleApiError (ErrValue.str s) = s)
    ∧ (∀ fs c s,
        (fs.find? (fun p => p.1 = "message")).map (fun p => p.2) = some (Json.str s) →
        handleApiError (ErrValue.obj fs c) = s)
    ∧ (∀ fs c j,
        (fs.find? (fun p => p.1 = "message")).map (fun p => p.2) = some j →
        (∀ s, j ≠ Json.str s) → handleApiError (ErrValue.obj fs c) = "Ошибка")
    ∧ (∀ fs,
        (fs.find? (fun p => p.1 = "message")).map (fun p => p.2) = none →
        handleApiError (ErrValue.obj fs false) = Json.stringify (Json.obj fs))
    ∧ (∀ fs,
        (fs.find? (fun p => p.1 = "message")).map (fun p => p.2) = none →
        handleApiError (ErrValue.obj fs true) = "Ошибка") := by
  refine ⟨fun e => rfl, fun m => rfl, fun s => rfl, ?_, ?_, ?_, ?_⟩
  · intro fs c s h
    simp only [handleApiError, h]
  · intro fs c j h hns
    cases j with
    | str s => exact absurd rfl (hns s)
    | null => simp [handleApiError, h]
    | bool b => simp [handleApiError, h]
    | num n => simp [handleApiError, h]
    | arr xs => simp [handleApiError, h]
    | obj o => simp [handleApiError, h]
  · intro fs h
    simp [handleApiError, h]
  · intro fs h
    simp [handleApiError, h]

/-- Witness for C2: the classifier evaluated on an ApiError with message
`"X"`, the string `"Y"` and the object `{message: "Z"}`. -/
theorem handleApiError_spec_witness :
    handleApiError (ErrValue.apiErr { message := "X", status := 400, details := none }) = "X"
    ∧ handleApiError (ErrValue.str "Y") = "Y"
    ∧ ([("message", Json.str "Z")].find? (fun p => p.1 = "message")).map (fun p => p.2)
        = some (Json.str "Z")
    ∧ handleApiError (ErrValue.obj [("message", Json.str "Z")] false) = "Z" :=
  ⟨handleApiError_spec.1 { message := "X", status := 400, details := none },
   handleApiError_spec.2.2.1 "Y", rfl,
   handleApiError_spec.2.2.2.1 [("message", Json.str "Z")] false "Z" rfl⟩

/-- Counterexample for C2 as stated: the fallback string returned for an
un-serializable (circular) value is `"Ошибка"` — the localized word for
"Error" — and not the string `"Error"`; moreover an object whose `message`
field is the number 42 also yields `"Ошибка"`, not its JSON serialization
`{"message":42}`. -/
theorem handleApiError_fallback_cex :
    handleApiError (ErrValue.obj [] true) = "Ошибка"
    ∧ ("Ошибка" : String) ≠ "Error"
    ∧ handleApiError (ErrValue.obj [("message", Json.num 42)] false) = "Ошибка"
    ∧ Json.stringify (Json.obj [("message", Json.num 42)]) = "\x7b\"message\":42\x7d"
    ∧ ("Ошибка" : String) ≠ "\x7b\"message\":42\x7d" := by
  refine ⟨rfl, by decide, rfl, ?_, by decide⟩
  simp [Json.stringify, stringifyFields, jsonEscape, jsonEscapeChars]
  decide

/-! ## Claim C10: `withErrorHandler` -/

/-- Claim C10: the wrapped function returns `fn`'s resolved value when
`fn` resolves (whether or not an `onError` was supplied); when `fn`
rejects it calls `onError` with the caught value exactly when a callback
was supplied, and returns null (`none`) instead of re-raising. The
wrapper is a total function of the outcome of `fn`: it never raises. -/
theorem withErrorHandler_spec {A B : Type} (fn : A → Except Thrown B) (a : A) :
    (∀ v, fn a = Except.ok v → ∀ b, withErrorHandler fn b a = (some v, []))
    ∧ (∀ e, fn a = Except.error e →
        withErrorHandler fn true a = (none, [e])
        ∧ withErrorHandler fn false a = (none, [])) := by
  constructor
  · intro v hv b
    simp [withErrorHandler, hv]
  · intro e he
    constructor <;> simp [withErrorHandler, he]

/-- Witness for C10: a function rejecting on 0 and resolving on 1. -/
theorem withErrorHandler_spec_witness :
    ((fun n : Nat => if n = 0 then Except.error (Thrown.error "boom") else Except.ok n) 0
        = Except.error (Thrown.error "boom"))
    ∧ withErrorHandler
        (fun n : Nat => if n = 0 then Except.error (Thrown.error "boom") else Except.ok n)
        true 0 = (none, [Thrown.error "boom"])
    ∧ ((fun n : Nat => if n = 0 then Except.error (Thrown.error "boom") else Except.ok n) 1
        = Except.ok 1)
    ∧ withErrorHandler
        (fun n : Nat => if n = 0 then Except.error (Thrown.error "boom") else Except.ok n)
        false 1 = (some 1, []) :=
  ⟨rfl,
   ((withErrorHandler_spec
      (fun n : Nat => if n = 0 then Except.error (Thrown.error "boom") else Except.ok n) 0).2
      (Thrown.error "boom") rfl).1,
   rfl,
   (withErrorHandler_spec
      (fun n : Nat => if n = 0 then Except.error (Thrown.error "boom") else Except.ok n) 1).1
      1 rfl false⟩

/-! ## Claim C9: headers forwarded by the proxy handlers -/

/-- Claim C9 (amended): both handlers forward the same header set: it
carries a `cookie` entry exactly when the inbound request has a cookie
header with a non-empty (combined) value, an `authorization` entry exactly
when the inbound request has a non-empty authorization header, and no
entry under any other name; consequently the forwarded headers are
unaffected by the presence or value of any other inbound header. -/
theorem forwardedHeaders_spec (inbound : List (String × String)) :
    dayForwardedHeaders inbound = exportForwardedHeaders inbound
    ∧ (∀ v, ("cookie", v) ∈ dayForwardedHeaders inbound ↔
        (headersGet inbound "cookie" = some v ∧ v ≠ ""))
    ∧ (∀ v, ("authorization", v) ∈ dayForwardedHeaders inbound ↔
        (headersGet inbound "authorization" = some v ∧ v ≠ ""))
    ∧ (∀ k v, (k, v) ∈ dayForwardedHeaders inbound → k = "cookie" ∨ k = "authorization")
    ∧ ∀ inbound2,
        headersGet inbound "cookie" = headersGet inbound2 "cookie" →
        headersGet inbound "authorization" = headersGet inbound2 "authorization" →
        dayForwardedHeaders inbound = dayForwardedHeaders inbound2 := by
  refine ⟨rfl, ?_, ?_, ?_, ?_⟩
  · intro v
    rcases hc : headersGet inbound "cookie" with _ | c <;>
      rcases ha : headersGet inbound "authorization" with _ | a <;>
        simp only [dayForwardedHeaders, hc, ha] <;>
          [skip; by_cases hae : a = ""; by_cases hce : c = "";
            (by_cases hce : c = "" <;> by_cases hae : a = "")] <;>
            (try simp_all) <;> aesop
  · intro v
    rcases hc : headersGet inbound "cookie" with _ | c <;>
      rcases ha : headersGet inbound "authorization" with _ | a <;>
        simp only [dayForwardedHeaders, hc, ha] <;>
          [skip; by_cases hae : a = ""; by_cases hce : c = "";
            (by_cases hce : c = "" <;> by_cases hae : a = "")] <;>
            (try simp_all) <;> aesop
  · intro k v hm
    rcases hc : headersGet inbound "cookie" with _ | c <;>
      rcases ha : headersGet inbound "authorization" with _ | a <;>
        rw [dayForwardedHeaders, hc, ha] at hm <;> revert hm <;>
          [skip; by_cases hae : a = ""; by_cases hce : c = "";
            (by_cases hce : c = "" <;> by_cases hae : a = "")] <;>
            (try simp_all) <;> aesop
  · intro inbound2 h1 h2
    rw [dayForwardedHeaders, dayForwardedHeaders, h1, h2]

/-- Witness for C9: an inbound request with a cookie and an unrelated
`x-custom` header forwards exactly the cookie entry, and the forwarded
set is identical to the one for the same request without `x-custom`. -/
theorem forwardedHeaders_spec_witness :
    headersGet [("cookie", "sid=1"), ("x-custom", "q")] "cookie"
        = headersGet [("cookie", "sid=1")] "cookie"
    ∧ headersGet [("cookie", "sid=1"), ("x-custom", "q")] "authorization"
        = headersGet [("cookie", "sid=1")] "authorization"
    ∧ dayForwardedHeaders [("cookie", "sid=1"), ("x-custom", "q")]
        = dayForwardedHeaders [("cookie", "sid=1")]
    ∧ (("cookie", "sid=1") ∈ dayForwardedHeaders [("cookie", "sid=1"), ("x-custom", "q")])
    ∧ headersGet [("cookie", "sid=1"), ("x-custom", "q")] "cookie" = some "sid=1" :=
  ⟨rfl, rfl,
   (forwardedHeaders_spec [("cookie", "sid=1"), ("x-custom", "q")]).2.2.2.2
     [("cookie", "sid=1")] rfl rfl,
   ((forwardedHeaders_spec [("cookie", "sid=1"), ("x-custom", "q")]).2.1 "sid=1").2
     ⟨rfl, by decide⟩,
   rfl⟩

/-- Counterexample for C9 as stated: an inbound request carrying a cookie
header with an empty value. The header is present on the inbound request,
but `if (cookie)` treats the empty string as falsy, so neither handler
forwards it — "present iff present" fails. -/
theorem forwardedHeaders_empty_cookie_cex :
    headersGet [("cookie", "")] "cookie" = some ""
    ∧ dayForwardedHeaders [("cookie", "")] = []
    ∧ exportForwardedHeaders [("cookie", "")] = [] :=
  ⟨rfl, rfl, rfl⟩

/-! ## Claim C4: the day-summary relay (code bug) -/

/-- Claim C4 evaluated at the failing input (code bug): an upstream 200
response whose non-null body `"not json"` is not valid JSON. `res.json()`
consumes the body and rejects; the `res.text()` call in the catch then
throws on the already-consumed body, so the intended
`{error: "Failed to parse response", details: "not json"}` reply at the
upstream status is never produced — the outer catch replies 500 with an
internal-error payload instead. The claimed behavior occurs only for
bodyless upstream responses, shown in the second conjunct. -/
theorem daySummaryRelay_nonjson_bug :
    daySummaryRelay (FetchOutcome.success
        { status := 200, statusText := "OK", headers := [], hasBody := true,
          bodyBroken := false, bodyText := "not json", bodyJson := none })
      = { status := 500,
          body := Json.obj [("error", Json.str "Internal server error"),
                            ("message", Json.str bodyUnusableMsg)] }
    ∧ daySummaryRelay (FetchOutcome.success
        { status := 204, statusText := "No Content", headers := [], hasBody := false,
          bodyBroken := false, bodyText := "", bodyJson := none })
      = { status := 204,
          body := Json.obj [("error", Json.str "Failed to parse response"),
                            ("details", Json.str "")] }
    ∧ daySummaryRelay (FetchOutcome.success
        { status := 200, statusText := "OK", headers := [], hasBody := true,
          bodyBroken := false, bodyText := "\x7b\"a\":1\x7d",
          bodyJson := some (Json.obj [("a", Json.num 1)]) })
      = { status := 200, body := Json.obj [("a", Json.num 1)] } :=
  ⟨rfl, rfl, rfl⟩

/-! ## Lemmas about `Headers` normalization -/

theorem toNat_ofNat_valid (n : Nat) (h : Char.isValidCharNat n) : (Char.ofNat n).toNat = n := by
  rw [Char.ofNat, dif_pos h]
  rfl

theorem charToLower_idem (c : Char) : c.toLower.toLower = c.toLower := by
  simp only [Char.toLower]
  by_cases h1 : c.toNat ≥ 65 ∧ c.toNat ≤ 90
  · rw [if_pos h1]
    have hv : (Char.ofNat (c.toNat + 32)).toNat = c.toNat + 32 :=
      toNat_ofNat_valid _ (Or.inl (by omega))
    rw [if_neg (by rw [hv]; omega)]
  · rw [if_neg h1, if_neg h1]

theorem lowerStr_idem (s : String) : lowerStr (lowerStr s) = lowerStr s := by
  unfold lowerStr
  rw [show (String.mk (s.data.map Char.toLower)).data = s.data.map Char.toLower from rfl,
    List.map_map]
  exact congrArg String.mk (List.map_congr_left (fun a _ => charToLower_idem a))

theorem headersAppend_keys (acc : List (String × String)) (k v : String)
    (h : ∀ p ∈ acc, lowerStr p.1 = p.1) :
    ∀ q ∈ headersAppend acc k v, lowerStr q.1 = q.1 := by
  induction acc with
  | nil =>
      intro q hq
      simp only [headersAppend, List.mem_singleton] at hq
      subst hq
      exact lowerStr_idem k
  | cons p ps ih =>
      intro q hq
      by_cases hp : p.1 = lowerStr k
      · rw [show headersAppend (p :: ps) k v = (p.1, p.2 ++ ", " ++ v) :: ps from by
          simp [headersAppend, hp]] at hq
        rcases List.mem_cons.1 hq with h1 | h1
        · subst h1
          exact h p (List.mem_cons_self p ps)
        · exact h q (List.mem_cons_of_mem p h1)
      · rw [show headersAppend (p :: ps) k v = p :: headersAppend ps k v from by
          simp [headersAppend, hp]] at hq
        rcases List.mem_cons.1 hq with h1 | h1
        · subst h1
          exact h q (List.mem_cons_self q ps)
        · exact ih (fun r hr => h r (List.mem_cons_of_mem p hr)) q h1

theorem headersFillAux_keys (xs acc : List (String × String))
    (h : ∀ p ∈ acc, lowerStr p.1 = p.1) :
    ∀ q ∈ headersFillAux acc xs, lowerStr q.1 = q.1 := by
  induction xs generalizing acc with
  | nil => exact h
  | cons x xs ih =>
      intro q hq
      exact ih (headersAppend acc x.1 x.2) (headersAppend_keys acc x.1 x.2 h) q hq

theorem newHeaders_keys (caller : Option HeadersInitV) :
    ∀ q ∈ newHeaders caller, lowerStr q.1 = q.1 := by
  cases caller with
  | none => intro q hq; cases hq
  | some h =>
      exact headersFillAux_keys (headersEntries h) [] (fun p hp => absurd hp (List.not_mem_nil p))

theorem headersAppend_of_forall_ne (acc : List (String × String)) (k v : String)
    (h : ∀ p ∈ acc, p.1 ≠ lowerStr k) : headersAppend acc k v = acc ++ [(lowerStr k, v)] := by
  induction acc with
  | nil => simp [headersAppend]
  | cons p ps ih =>
      have hp : p.1 ≠ lowerStr k := h p (List.mem_cons_self p ps)
      rw [show headersAppend (p :: ps) k v = p :: headersAppend ps k v from by
          simp [headersAppend, hp],
        ih (fun q hq => h q (List.mem_cons_of_mem p hq))]
      rfl

theorem headersFillAux_of_disjoint (xs acc : List (String × String))
    (hxlow : ∀ p ∈ xs, lowerStr p.1 = p.1)
    (hxnd : (xs.map Prod.fst).Nodup)
    (hdisj : ∀ p ∈ acc, ∀ q ∈ xs, p.1 ≠ q.1) :
    headersFillAux acc xs = acc ++ xs := by
  induction xs generalizing acc with
  | nil => simp [headersFillAux]
  | cons x xs ih =>
      have hxl : lowerStr x.1 = x.1 := hxlow x (List.mem_cons_self x xs)
      have happ : headersAppend acc x.1 x.2 = acc ++ [(x.1, x.2)] := by
        rw [headersAppend_of_forall_ne acc x.1 x.2
          (fun p hp => by rw [hxl]; exact hdisj p hp x (List.mem_cons_self x xs)), hxl]
      rw [show headersFillAux acc (x :: xs) = headersFillAux (headersAppend acc x.1 x.2) xs
          from rfl,
        happ]
      have hnd' : (xs.map Prod.fst).Nodup := (List.nodup_cons.1 (by simpa using hxnd)).2
      have hx_not : x.1 ∉ xs.map Prod.fst := (List.nodup_cons.1 (by simpa using hxnd)).1
      have hdisj' : ∀ p ∈ acc ++ [(x.1, x.2)], ∀ q ∈ xs, p.1 ≠ q.1 := by
        intro p hp q hq
        rcases List.mem_append.1 hp with h1 | h1
        · exact hdisj p h1 q (List.mem_cons_of_mem x hq)
        · have hpx : p = (x.1, x.2) := List.mem_singleton.1 h1
          subst hpx
          intro hcontra
          exact hx_not (by rw [hcontra]; exact List.mem_map_of_mem Prod.fst hq)
      rw [ih (acc ++ [(x.1, x.2)]) (fun p hp => hxlow p (List.mem_cons_of_mem x hp)) hnd' hdisj']
      simp

theorem headersFill_of_normalized (xs : List (String × String))
    (hlow : ∀ p ∈ xs, lowerStr p.1 = p.1) (hnd : (xs.map Prod.fst).Nodup) :
    headersFill xs = xs := by
  rw [headersFill, headersFillAux_of_disjoint xs [] hlow hnd
    (fun p hp => absurd hp (List.not_mem_nil p))]
  rfl

theorem filter_filter_of_imp {A : Type} (l : List A) (p q : A → Bool)
    (h : ∀ a, p a = true → q a = true) : (l.filter q).filter p = l.filter p := by
  induction l with
  | nil => rfl
  | cons a as ih =>
      by_cases hq : q a = true
      · rw [List.filter_cons, List.filter_cons, hq, if_pos rfl, List.filter_cons, ih]
      · have hp : p a = false := by
          cases hpa : p a with
          | false => rfl
          | true => exact absurd (h a hpa) hq
        rw [List.filter_cons, List.filter_cons]
        rw [Bool.not_eq_true] at hq
        rw [hq, hp]
        simpa [hp] using ih

theorem filter_filter_of_contra {A : Type} (l : List A) (p q : A → Bool)
    (h : ∀ a, q a = true → p a = false) : (l.filter q).filter p = [] := by
  apply filter_eq_nil_of_forall
  intro a ha
  exact h a (List.of_mem_filter ha)

theorem headersGet_filter (hs : List (String × String)) (keep : String × String → Bool)
    (n : String) (h : ∀ p, lowerStr p.1 = lowerStr n → keep p = true) :
    headersGet (hs.filter keep) n = headersGet hs n := by
  unfold headersGet
  rw [filter_filter_of_imp hs _ keep (fun a ha => h a (of_decide_eq_true ha))]

theorem headersGet_delete_self (hs : List (String × String)) (n : String) :
    headersGet (headersDelete hs n) n = none := by
  unfold headersGet headersDelete
  rw [filter_filter_of_contra hs _ _ (fun a ha => by
    have := of_decide_eq_true ha
    exact decide_eq_false (by simp [this]))]
  rfl

theorem headersGet_delete_other (hs : List (String × String)) (n m : String)
    (h : lowerStr m ≠ lowerStr n) :
    headersGet (headersDelete hs n) m = headersGet hs m := by
  unfold headersDelete
  exact headersGet_filter hs _ m (fun p hp => decide_eq_true (by rw [hp]; exact h))

/-! ## Claim C6: the export-report relay -/

/-- Claim C6: for every upstream response (with the normalized header
entries a fetch `Headers` object holds: lowercase, duplicate-free names),
the export-report handler replies with the upstream status code, forwards
the upstream body stream unmodified and unparsed, carries no
`content-encoding` header even if the upstream had one, and leaves every
other upstream header readable unchanged. -/
theorem exportReportRelay_spec (r : FetchResponse)
    (hlow : ∀ p ∈ r.headers, lowerStr p.1 = p.1)
    (hnd : (r.headers.map Prod.fst).Nodup) :
    ∃ out, exportReportRelay (FetchOutcome.success r) = HandlerBResult.relay out
      ∧ out.status = r.status
      ∧ out.body = r.bodyStream
      ∧ headersGet out.headers "content-encoding" = none
      ∧ ∀ n, lowerStr n ≠ "content-encoding" →
          headersGet out.headers n = headersGet r.headers n := by
  refine ⟨_, rfl, rfl, rfl, ?_, ?_⟩
  · exact headersGet_delete_self _ _
  · intro n hn
    show headersGet (headersDelete (headersFill r.headers) "content-encoding") n
      = headersGet r.headers n
    rw [headersFill_of_normalized r.headers hlow hnd]
    exact headersGet_delete_other _ _ _ (by
      rw [show lowerStr "content-encoding" = "content-encoding" from by decide]
      exact hn)

/-- Witness for C6: an upstream 200 with a `content-type` and a
`content-encoding` header and body `"csv"`. -/
theorem exportReportRelay_spec_witness :
    (∀ p ∈ ([("content-type", "text/csv"), ("content-encoding", "gzip")]
        : List (String × String)), lowerStr p.1 = p.1)
    ∧ ((([("content-type", "text/csv"), ("content-encoding", "gzip")]
        : List (String × String)).map Prod.fst).Nodup)
    ∧ ∃ out, exportReportRelay (FetchOutcome.success
          { status := 200, statusText := "OK",
            headers := [("content-type", "text/csv"), ("content-encoding", "gzip")],
            hasBody := true, bodyBroken := false, bodyText := "csv", bodyJson := none })
        = HandlerBResult.relay out
        ∧ out.status = 200
        ∧ out.body = some "csv"
        ∧ headersGet out.headers "content-encoding" = none
        ∧ headersGet out.headers "content-type" = some "text/csv" := by
  refine ⟨by decide, by decide, ?_⟩
  obtain ⟨out, h1, h2, h3, h4, h5⟩ := exportReportRelay_spec
    { status := 200, statusText := "OK",
      headers := [("content-type", "text/csv"), ("content-encoding", "gzip")],
      hasBody := true, bodyBroken := false, bodyText := "csv", bodyJson := none }
    (by decide) (by decide)
  exact ⟨out, h1, h2, h3, h4, (h5 "content-type" (by decide)).trans rfl⟩

theorem headersSetH_of_not_has (hs : List (String × String)) (k v : String)
    (h : headersHas hs k = false) : headersSetH hs k v = hs ++ [(lowerStr k, v)] := by
  induction hs with
  | nil => simp [headersSetH]
  | cons p ps ih =>
      rw [headersHas, List.any_cons] at h
      obtain ⟨h1, h2⟩ := Bool.or_eq_false_iff.1 h
      have hne : p.1 ≠ lowerStr k := by
        intro hc
        have hl : lowerStr p.1 = lowerStr k := by rw [hc, lowerStr_idem]
        simp [hl] at h1
      rw [show headersSetH (p :: ps) k v = p :: headersSetH ps k v from by
          simp [headersSetH, hne],
        ih (show headersHas ps k = false from h2)]
      rfl

theorem headersGet_append_one (hs : List (String × String)) (k v : String)
    (h : headersHas hs k = false) :
    headersGet (hs ++ [(lowerStr k, v)]) k = some v := by
  unfold headersGet
  have h1 : hs.filter (fun p => lowerStr p.1 = lowerStr k) = [] := by
    apply filter_eq_nil_of_forall
    intro p hp
    apply decide_eq_false
    intro hc
    have hcontra : headersHas hs k = true := by
      rw [headersHas]
      exact List.any_eq_true.2 ⟨p, hp, decide_eq_true hc⟩
    rw [hcontra] at h
    cases h
  rw [List.filter_append, h1]
  simp [List.filter, lowerStr_idem k]

/-! ## Claim C7: `apiFetch` -/

/-- Claim C7: `apiFetch` injects `authorization: Bearer <token>` only when
a token exists and the caller-supplied headers contain no authorization
header under the case-insensitive `Headers.has` check (otherwise the
caller's header set passes untouched); the request is issued with
`credentials: "omit"`; a non-success status yields the `ApiError` built
from the response, and a success status yields the raw response. -/
theorem apiFetch_spec :
    (∀ caller t, headersHas (newHeaders caller) "authorization" = false →
        headersGet ((apiFetchOutgoing caller (some t)).headers) "authorization"
          = some ("Bearer " ++ t))
    ∧ (∀ caller t, headersHas (newHeaders caller) "authorization" = true →
        (apiFetchOutgoing caller (some t)).headers = newHeaders caller)
    ∧ (∀ caller, (apiFetchOutgoing caller none).headers = newHeaders caller)
    ∧ (∀ caller tok, (apiFetchOutgoing caller tok).credentials = "omit")
    ∧ (∀ r, r.okStatus = false → apiFetchResult r = Except.error (ApiError.fromResponse r))
    ∧ (∀ r, r.okStatus = true → apiFetchResult r = Except.ok r) := by
  refine ⟨?_, ?_, fun caller => rfl, fun caller tok => rfl, ?_, ?_⟩
  · intro caller t h
    show headersGet (apiFetchHeaders caller (some t)) "authorization" = some ("Bearer " ++ t)
    rw [apiFetchHeaders]
    simp only [h, Bool.false_eq_true, if_false]
    rw [headersSetH_of_not_has _ _ _ h]
    exact headersGet_append_one _ _ _ h
  · intro caller t h
    show apiFetchHeaders caller (some t) = newHeaders caller
    rw [apiFetchHeaders]
    simp [h]
  · intro r h
    rw [apiFetchResult]
    simp [h]
  · intro r h
    rw [apiFetchResult]
    simp [h]

/-- Witness for C7: no caller headers (token injected), a caller-supplied
`Authorization` header under different casing (nothing injected), and a
404 / 200 response pair. -/
theorem apiFetch_spec_witness :
    headersHas (newHeaders none) "authorization" = false
    ∧ headersGet ((apiFetchOutgoing none (some "abc")).headers) "authorization"
        = some ("Bearer " ++ "abc")
    ∧ headersHas (newHeaders (some (HeadersInitV.pairs [("Authorization", "Bearer zzz")])))
        "authorization" = true
    ∧ (apiFetchOutgoing (some (HeadersInitV.pairs [("Authorization", "Bearer zzz")]))
        (some "abc")).headers
      = newHeaders (some (HeadersInitV.pairs [("Authorization", "Bearer zzz")]))
    ∧ (apiFetchOutgoing none (some "abc")).credentials = "omit"
    ∧ ({ status := 404, statusText := "Not Found", headers := [], hasBody := false,
         bodyBroken := false, bodyText := "", bodyJson := none } : FetchResponse).okStatus
        = false
    ∧ apiFetchResult
        { status := 404, statusText := "Not Found", headers := [], hasBody := false,
          bodyBroken := false, bodyText := "", bodyJson := none }
      = Except.error (ApiError.fromResponse
          { status := 404, statusText := "Not Found", headers := [], hasBody := false,
            bodyBroken := false, bodyText := "", bodyJson := none })
    ∧ apiFetchResult
        { status := 200, statusText := "OK", headers := [], hasBody := true,
          bodyBroken := false, bodyText := "ok", bodyJson := none }
      = Except.ok
          { status := 200, statusText := "OK", headers := [], hasBody := true,
            bodyBroken := false, bodyText := "ok", bodyJson := none } :=
  ⟨by decide,
   apiFetch_spec.1 none "abc" (by decide),
   by decide,
   apiFetch_spec.2.1 (some (HeadersInitV.pairs [("Authorization", "Bearer zzz")])) "abc"
     (by decide),
   apiFetch_spec.2.2.2.1 none (some "abc"),
   by decide,
   apiFetch_spec.2.2.2.2.1
     { status := 404, statusText := "Not Found", headers := [], hasBody := false,
       bodyBroken := false, bodyText := "", bodyJson := none } (by decide),
   apiFetch_spec.2.2.2.2.2
     { status := 200, statusText := "OK", headers := [], hasBody := true,
       bodyBroken := false, bodyText := "ok", bodyJson := none } (by decide)⟩
